import Mathlib

/-!
Shallow embedding of the OS.js build orchestration core (src/build/index.js):
the target-list resolver, the task registry and chain runner, and the
top-level build, config and generate entry points.

Strings are modelled through their character lists. The JavaScript string
operations the source uses (split on a separator character, trim, the
string-pattern replace that rewrites only the first occurrence, the
non-global regex replace of one whitespace character, join on a separator,
indexOf) are embedded as structural functions on character lists so that
every definition is executable.
-/

/-- JavaScript style split on a single-character separator: splits at every
occurrence, keeping empty pieces. The worker carries the current piece in
reverse. -/
def jsSplitAux (sep : Char) (cur : List Char) : List Char → List (List Char)
  | [] => [cur.reverse]
  | c :: cs =>
    if c == sep then cur.reverse :: jsSplitAux sep [] cs else jsSplitAux sep (c :: cur) cs

/-- JavaScript style split of a string on a separator character. -/
def jsSplit (sep : Char) (s : String) : List String :=
  (jsSplitAux sep [] s.data).map List.asString

/-- JavaScript style trim: removes leading and trailing whitespace. -/
def jsTrim (s : String) : String :=
  (((s.data.dropWhile Char.isWhitespace).reverse.dropWhile Char.isWhitespace).reverse).asString

/-- Removal of the first whitespace character of a character list, embedding
the non-global regex replace of one whitespace character by the empty string
used at line 81 of the source. -/
def removeFirstWsData : List Char → List Char
  | [] => []
  | c :: cs => if c.isWhitespace then cs else c :: removeFirstWsData cs

/-- Removal of the first whitespace character of a string. -/
def removeFirstWs (s : String) : String := (removeFirstWsData s.data).asString

/-- Replacement of the first occurrence of a character by another, embedding
the JavaScript string-pattern replace, which rewrites only the first match. -/
def replaceFirstData (c d : Char) : List Char → List Char
  | [] => []
  | x :: xs => if x == c then d :: xs else x :: replaceFirstData c d xs

/-- Replacement of the first occurrence of a character in a string. -/
def replaceFirst (c d : Char) (s : String) : String := (replaceFirstData c d s.data).asString

/-- JavaScript style join of a list of strings on a separator character. -/
def jsJoinData (sep : Char) : List (List Char) → List Char
  | [] => []
  | [x] => x
  | x :: xs => x ++ sep :: jsJoinData sep xs

/-- Join of a list of strings on a separator character. -/
def jsJoin (sep : Char) (l : List String) : String := (jsJoinData sep (l.map String.data)).asString

/-- CLI option accessor: the only part of the command line the core reads. -/
structure Cli where
  option : String → Option String

/-- JavaScript truthiness of a string-or-absent value: undefined, null and
the empty string are falsy. -/
def jsTruthyStr : Option String → Bool
  | none => false
  | some s => !(s == "")

/-- CLI accessor with no options set. -/
def cliNone : Cli := ⟨fun _ => none⟩

/-- CLI accessor with exactly the target option set. -/
def cliWithTarget (v : String) : Cli := ⟨fun n => if n == "target" then some v else none⟩

/-- CLI accessor with exactly the name option set. -/
def cliWithName (v : String) : Cli := ⟨fun n => if n == "name" then some v else none⟩

/-- Entry mapper of the resolver (the map callback at lines 60 to 62 of
src/build/index.js): the trimmed value, in strict mode mapped through the
defaults, becoming null (here none) when it is not a default. -/
def strictKeepEntry (defaults : List String) (strict : Bool) (iter : String) : Option String :=
  let val := jsTrim iter
  if strict then (if defaults.contains val then some val else none) else some val

/-- Truthiness filter of the resolver (lines 63 to 65): null and blank
entries are dropped, truthy entries kept. -/
def truthyKeep (v : Option String) : Option String := if jsTruthyStr v then v else none

/-- Embedding of the target resolver, function at lines 55 to 69 of
src/build/index.js: parses the target option, trimming each comma-separated
entry, in strict mode dropping entries outside the defaults (mapped to null
first, then removed together with blanks by the truthiness filter), and
falling back to the defaults when the option is falsy or, in strict mode,
when nothing survives. -/
def _getTargets (cli : Cli) (defaults : List String) (strict : Bool) : List String :=
  let target := cli.option "target"
  let result :=
    if jsTruthyStr target then
      ((jsSplit ',' (target.getD "")).map (strictKeepEntry defaults strict)).filterMap truthyKeep
    else defaults
  if strict then (if result.isEmpty then defaults else result) else result

/-- A task namespace as passed to the chain runner: either a table object
mapping task names to handlers (build and config) or a dispatch function
(generate). A handler's asynchronous result is embedded as its settled
Except value. -/
inductive TaskNamespace (Cfg α : Type) where
  | table : List (String × (Cli → Cfg → Except String α)) → TaskNamespace Cfg α
  | fn : (Cli → Cfg → String → Except String α) → TaskNamespace Cfg α

/-- Property lookup on a table object: the entry of the first (in a
JavaScript object, unique) matching key, compared with exact case-sensitive
string equality. -/
def lookupTask {Cfg α : Type} (tbl : List (String × (Cli → Cfg → Except String α)))
    (name : String) : Option (Cli → Cfg → Except String α) :=
  (tbl.find? (fun p => p.1 == name)).map Prod.snd

/-- One element of the chain built inside the runner (lines 81 to 94): the
entry is normalized by rewriting its first hyphen to an underscore, then
dispatched. The first component lists the handlers this step invokes when it
is forced; an unknown name in a table namespace invokes nothing and rejects
with an error naming the offending (normalized) entry. -/
def taskStep {Cfg α : Type} (cli : Cli) (cfg : Cfg) (ns : TaskNamespace Cfg α)
    (iter0 : String) : List String × Except String α :=
  let iter := replaceFirst '-' '_' iter0
  match ns with
  | TaskNamespace.fn f => ([iter], f cli cfg iter)
  | TaskNamespace.table tbl =>
    match lookupTask tbl iter with
    | some h => ([iter], h cli cfg)
    | none => ([], Except.error ("Invalid task: " ++ iter))

/-- Task-name entries of one chain: the whole argument string has its first
whitespace character removed (the replace at line 81 is not global), then is
split on commas. -/
def chainEntries (args : String) : List String := jsSplit ',' (removeFirstWs args)

/-- Modelled from the spec: the sequencing combinator named eachp from
src/build/utils.js, which is not among the provided sources. Per the spec it
runs a list of promise-producing thunks strictly sequentially, each thunk
starting only after the previous one settled successfully; the first
rejection aborts the remainder and propagates exactly that rejection, and on
full success it resolves with the per-thunk results in order. A thunk is
embedded as the pair of the handler invocations it performs when forced and
its settled outcome; thunks after the first rejection are never forced, so
their invocations do not occur. -/
def eachp {α : Type} : List (List String × Except String α) → List String × Except String (List α)
  | [] => ([], Except.ok [])
  | (tr, Except.error e) :: _ => (tr, Except.error e)
  | (tr, Except.ok v) :: rest =>
    match eachp rest with
    | (tr2, Except.ok vs) => (tr ++ tr2, Except.ok (v :: vs))
    | (tr2, Except.error e) => (tr ++ tr2, Except.error e)

/-- Observable outcome of one chain-runner invocation: how many times the
configuration loader ran, which task handlers ran (in order), and the
settled result. -/
structure ChainResult (α : Type) where
  configLoads : Nat
  invoked : List String
  outcome : Except String (List α)

/-- Embedding of the chain runner, function at lines 74 to 98 of
src/build/index.js. The configuration loader is a parameter giving the
outcome a load would produce; the configLoads field counts how often the
runner performs it. A falsy argument string rejects before any load; a
failing load rejects the whole chain with no handler run. -/
def _eachTask {Cfg α : Type} (cli : Cli) (args : Option String)
    (getConfiguration : Except String Cfg) (ns : TaskNamespace Cfg α) : ChainResult α :=
  if jsTruthyStr args then
    match getConfiguration with
    | Except.error e => ⟨1, [], Except.error e⟩
    | Except.ok cfg =>
      let r := eachp ((chainEntries (args.getD "")).map (taskStep cli cfg ns))
      ⟨1, r.1, r.2⟩
  else ⟨0, [], Except.error "Not enough arguments"⟩

/-- Canonical default build stage list, line 262 of src/build/index.js. -/
def CANONICAL_BUILD_STAGES : List String := ["config", "core", "themes", "manifest", "packages"]

/-- Keys of the static TASKS.build table in source order; the snapshot taken
at lines 236 to 242 records them before any plugin registration runs. -/
def ORIGINAL_TASKS_build : List String :=
  ["config", "core", "theme", "themes", "manifest", "package", "packages"]

/-- Keys of the static TASKS.config table in source order. -/
def configTaskNames : List String :=
  ["set", "get", "add_mount", "add_preload", "add_repository", "add_script", "add_style",
    "add_locale", "remove_repository", "enable_package", "disable_package", "list_packages"]

/-- Embedding of the TASKS.build.manifest handler (lines 143 to 150): the
targets the manifest-writer collaborator is invoked for, in order. The
resolved target list is computed non-strictly against the defaults dist and
dist-dev, then the extra target server is appended unconditionally. -/
def TASKS_build_manifest (cli : Cli) : List String :=
  let list := _getTargets cli ["dist", "dist-dev"] false
  list ++ ["server"]

/-- Embedding of the TASKS.build.package handler (lines 152 to 163): the
first component is the list of targets the single-package builder
collaborator is invoked for. The name option must be truthy and contain a
slash; otherwise the handler throws before any collaborator call. -/
def TASKS_build_package (cli : Cli) : List String × Except String Unit :=
  let list := _getTargets cli ["dist", "dist-dev"] false
  let name := cli.option "name"
  if !(jsTruthyStr name) || !((name.getD "").data.contains '/') then
    ([], Except.error "Invalid package name")
  else (list, Except.ok ())

/-- Default task-name list computed by the build entry point (lines 260 to
270) when its argument is falsy: the canonical stages followed by every key
of the, possibly plugin-extended, TASKS.build table that is neither in the
original-tasks snapshot nor already in the canonical list, in table key
order. -/
def buildDefaultList (buildKeys : List String) : List String :=
  let args := CANONICAL_BUILD_STAGES
  args ++ buildKeys.filter (fun i =>
    !(ORIGINAL_TASKS_build.contains i) && !(args.contains i))

/-- The default task-name list joined on commas, as handed to the runner. -/
def buildEntryArgs (buildKeys : List String) : String := jsJoin ',' (buildDefaultList buildKeys)

/-- Embedding of the build entry point: a falsy argument is replaced by the
computed default list joined on commas, then the chain runner is invoked on
the TASKS.build table. -/
def buildEntry {Cfg α : Type} (cli : Cli) (args : Option String)
    (getConfiguration : Except String Cfg)
    (tbl : List (String × (Cli → Cfg → Except String α))) : ChainResult α :=
  let args2 := if jsTruthyStr args then args else some (buildEntryArgs (tbl.map Prod.fst))
  _eachTask cli args2 getConfiguration (TaskNamespace.table tbl)

/-- Embedding of the generate entry point (lines 297 to 299): the chain
runner on the TASKS.generate dispatch function. -/
def generateEntry {Cfg α : Type} (cli : Cli) (args : Option String)
    (getConfiguration : Except String Cfg)
    (g : Cli → Cfg → String → Except String α) : ChainResult α :=
  _eachTask cli args getConfiguration (TaskNamespace.fn g)

/-- Settled state of the promise an entry point returns: resolved, rejected,
or never settling. -/
inductive SettleOutcome (α : Type) where
  | resolved : α → SettleOutcome α
  | rejected : String → SettleOutcome α
  | pending : SettleOutcome α
  deriving DecidableEq

/-- Observable outcome of one config entry-point invocation. -/
structure ConfigEntryResult where
  configLoads : Nat
  invoked : List String
  outcome : SettleOutcome Unit
  deriving DecidableEq

/-- Embedding of the config entry point (lines 275 to 292). The action is
normalized (first hyphen to underscore) and looked up; an unknown action is
rejected without loading the configuration. For a known action the source
attaches only a then-callback, and no catch, to the configuration load, so a
failing load settles nothing: the returned promise stays pending and no
handler runs. -/
def configEntry {Cfg : Type} (cli : Cli) (arg : Option String)
    (getConfiguration : Except String Cfg)
    (tbl : List (String × (Cli → Cfg → Except String Unit))) : ConfigEntryResult :=
  let a := replaceFirst '-' '_' (arg.getD "")
  match lookupTask tbl a with
  | some h =>
    match getConfiguration with
    | Except.error _ => ⟨1, [], SettleOutcome.pending⟩
    | Except.ok cfg =>
      ⟨1, [a],
        match h cli cfg with
        | Except.ok _ => SettleOutcome.resolved ()
        | Except.error e => SettleOutcome.rejected e⟩
  | none => ⟨0, [], SettleOutcome.rejected ("Invalid action: " ++ a)⟩

/-- Table with the given keys and trivially succeeding handlers, used to
instantiate theorems at concrete registries. -/
def okTable (names : List String) : List (String × (Cli → Unit → Except String Unit)) :=
  names.map (fun n => (n, fun _ _ => Except.ok ()))

/-! Helper lemmas shared by the claim theorems. -/

theorem eachp_all_ok {α : Type} (l : List (List String × α)) :
    eachp (l.map (fun p => (p.1, Except.ok p.2))) =
      ((l.map Prod.fst).flatten, Except.ok (l.map Prod.snd)) := by
  induction l with
  | nil => rfl
  | cons p l ih => simp [eachp, ih]

theorem eachp_first_error {α : Type} (okpre : List (List String × α)) (tr : List String)
    (e : String) (rest : List (List String × Except String α)) :
    eachp (okpre.map (fun p => (p.1, Except.ok p.2)) ++ (tr, Except.error e) :: rest) =
      ((okpre.map Prod.fst).flatten ++ tr, Except.error e) := by
  induction okpre with
  | nil => simp [eachp]
  | cons p l ih => simp [eachp, ih]

theorem truthyKeep_strict (D : List String) (a : String) :
    truthyKeep (strictKeepEntry D true a) =
      if D.contains (jsTrim a) && !(jsTrim a == "") then some (jsTrim a) else none := by
  by_cases hD : jsTrim a ∈ D
  · by_cases hE : jsTrim a = ""
    · have hD2 : "" ∈ D := hE ▸ hD
      simp [truthyKeep, strictKeepEntry, jsTruthyStr, hD2, hE]
    · simp [truthyKeep, strictKeepEntry, jsTruthyStr, hD, hE]
  · simp [truthyKeep, strictKeepEntry, jsTruthyStr, hD]

theorem strict_keep_eq_filter (D : List String) (es : List String) :
    (es.map (strictKeepEntry D true)).filterMap truthyKeep
      = (es.map jsTrim).filter (fun s => D.contains s && !(s == "")) := by
  induction es with
  | nil => rfl
  | cons a es ih =>
    rw [List.map_cons, List.filterMap_cons, truthyKeep_strict, List.map_cons, List.filter_cons,
      ih]
    cases hq : (D.contains (jsTrim a) && !(jsTrim a == ""))
    · simp [hq]
    · simp [hq]

theorem getTargets_absent (cli : Cli) (D : List String) (strict : Bool)
    (h : cli.option "target" = none) : _getTargets cli D strict = D := by
  simp [_getTargets, h, jsTruthyStr]

theorem getTargets_empty_option (cli : Cli) (D : List String) (strict : Bool)
    (h : cli.option "target" = some "") : _getTargets cli D strict = D := by
  simp [_getTargets, h, jsTruthyStr]

theorem getTargets_strict_eq (cli : Cli) (D : List String) (v : String)
    (hv : cli.option "target" = some v) (hne : v ≠ "") :
    _getTargets cli D true =
      (if ((jsSplit ',' v).map jsTrim).filter (fun s => D.contains s && !(s == "")) = [] then D
       else ((jsSplit ',' v).map jsTrim).filter (fun s => D.contains s && !(s == ""))) := by
  have hb : (v == "") = false := beq_eq_false_iff_ne.mpr hne
  have h1 : jsTruthyStr (some v) = true := by simp [jsTruthyStr, hb]
  simp only [_getTargets, hv, Option.getD_some, h1, if_true, strict_keep_eq_filter]
  by_cases hk : ((jsSplit ',' v).map jsTrim).filter (fun s => D.contains s && !(s == "")) = []
  · simp [hk]
  · simp [hk, List.isEmpty_iff]

theorem replaceFirstData_here (c d : Char) (pre post : List Char)
    (hpre : ∀ x ∈ pre, (x == c) = false) :
    replaceFirstData c d (pre ++ c :: post) = pre ++ d :: post := by
  induction pre with
  | nil => simp [replaceFirstData]
  | cons a pre ih =>
    have ha := hpre a (by simp)
    simp [replaceFirstData, ha, ih (fun x hx => hpre x (by simp [hx]))]

theorem removeFirstWsData_here (pre : List Char) (w : Char) (post : List Char)
    (hpre : ∀ x ∈ pre, x.isWhitespace = false) (hw : w.isWhitespace = true) :
    removeFirstWsData (pre ++ w :: post) = pre ++ post := by
  induction pre with
  | nil => simp [removeFirstWsData, hw]
  | cons a pre ih =>
    have ha := hpre a (by simp)
    simp [removeFirstWsData, ha, ih (fun x hx => hpre x (by simp [hx]))]

theorem lookupTask_isSome_iff {Cfg α : Type}
    (tbl : List (String × (Cli → Cfg → Except String α))) (n : String) :
    (lookupTask tbl n).isSome = true ↔ n ∈ tbl.map Prod.fst := by
  induction tbl with
  | nil => simp [lookupTask]
  | cons p tbl ih =>
    by_cases h : p.1 = n
    · have hb : (p.1 == n) = true := beq_iff_eq.mpr h
      simp [lookupTask, List.find?, hb, h]
    · have hb : (p.1 == n) = false := beq_eq_false_iff_ne.mpr h
      have h2 : ¬n = p.1 := fun hh => h hh.symm
      simp only [lookupTask, List.find?, hb] at ih ⊢
      simp [ih, List.mem_cons, h2]

theorem buildEntryArgs_ne_empty (K : List String) : buildEntryArgs K ≠ "" := by
  intro h
  have h2 := congrArg String.data h
  simp only [buildEntryArgs, buildDefaultList, CANONICAL_BUILD_STAGES, jsJoin,
    List.cons_append, List.map_cons, jsJoinData, List.asString] at h2
  simp [List.append_eq_nil] at h2

theorem data_asString (l : List Char) : (List.asString l).data = l := rfl

/-! Claim theorems. -/

/-- Claim C7: for every namespace, invoking the task-chain runner with an
empty or absent task-name list fails immediately with the invalid-argument
rejection Not enough arguments, and the configuration load is never
attempted. -/
theorem c7_empty_args_rejected {Cfg α : Type} (cli : Cli) (args : Option String)
    (getCfg : Except String Cfg) (ns : TaskNamespace Cfg α)
    (h : jsTruthyStr args = false) :
    _eachTask cli args getCfg ns =
      { configLoads := 0, invoked := [], outcome := Except.error "Not enough arguments" } := by
  simp [_eachTask, h]

/-- Witness for claim C7 at the absent and at the empty task-name list. -/
theorem c7_empty_args_rejected_witness :
    _eachTask cliNone none (Except.ok ()) (TaskNamespace.table (okTable configTaskNames)) =
      { configLoads := 0, invoked := [], outcome := Except.error "Not enough arguments" } ∧
    _eachTask cliNone (some "") (Except.ok ()) (TaskNamespace.table (okTable configTaskNames)) =
      { configLoads := 0, invoked := [], outcome := Except.error "Not enough arguments" } :=
  ⟨c7_empty_args_rejected cliNone none (Except.ok ()) _ rfl,
   c7_empty_args_rejected cliNone (some "") (Except.ok ()) _ rfl⟩

/-- Claim C2 counterexample: resolving the option value a,a against the
defaults list containing a, in strict mode, yields a twice, so the resolver
does not remove duplicate entries. -/
theorem c2_target_dedup_counterexample :
    _getTargets (cliWithTarget "a,a") ["a"] true = ["a", "a"] ∧
    (_getTargets (cliWithTarget "a,a") ["a"] true).count "a" = 2 := by
  constructor <;> decide

/-- Claim C2 amended: the resolver removes blanks but preserves duplicates;
an option value listing one valid non-blank target n times (n at least one)
resolves in strict mode to that target repeated n times. -/
theorem c2_duplicates_preserved (cli : Cli) (D : List String) (v t : String) (n : Nat)
    (hv : cli.option "target" = some v) (hsplit : jsSplit ',' v = List.replicate n t)
    (htrim : jsTrim t = t) (hmem : t ∈ D) (hne : t ≠ "") (hn : 1 ≤ n) :
    _getTargets cli D true = List.replicate n t := by
  have hvne : v ≠ "" := by
    intro hveq
    subst hveq
    rw [show jsSplit ',' "" = [""] from rfl] at hsplit
    cases n with
    | zero => simp at hsplit
    | succ m =>
      rw [List.replicate_succ] at hsplit
      injection hsplit with h1 h2
      exact hne h1.symm
  have hq : (D.contains t && !(t == "")) = true := by
    simp [List.contains, hmem, beq_eq_false_iff_ne.mpr hne]
  have hfil : (List.replicate n t).filter (fun s => D.contains s && !(s == "")) =
      List.replicate n t :=
    List.filter_eq_self.mpr (fun a ha => by rw [List.eq_of_mem_replicate ha]; exact hq)
  have hnn : List.replicate n t ≠ [] := by
    cases n with
    | zero => exact absurd hn (by decide)
    | succ m => simp [List.replicate_succ]
  rw [getTargets_strict_eq cli D v hv hvne, hsplit, List.map_replicate, htrim, hfil]
  simp [hnn]

/-- Witness for the amended claim C2 at the option value a,a. -/
theorem c2_duplicates_preserved_witness :
    _getTargets (cliWithTarget "a,a") ["a"] true = List.replicate 2 "a" :=
  c2_duplicates_preserved (cliWithTarget "a,a") ["a"] "a,a" "a" 2 rfl (by decide) rfl
    (by decide) (by decide) (by decide)

/-- Claim C5: strict-mode resolution keeps exactly the trimmed entries that
occur among the defaults (blank and unknown entries dropped without
substitution, input order preserved), falls back to the whole defaults list
when nothing survives, never returns an empty list, and returns the defaults
unchanged when the option is absent or empty. -/
theorem c5_strict_resolution (D : List String) (hD : D ≠ []) (v : String)
    (cli cli0 cliE : Cli)
    (hv : cli.option "target" = some v) (hne : v ≠ "")
    (h0 : cli0.option "target" = none) (hE : cliE.option "target" = some "") :
    (_getTargets cli D true =
      (if ((jsSplit ',' v).map jsTrim).filter (fun s => D.contains s && !(s == "")) = [] then D
       else ((jsSplit ',' v).map jsTrim).filter (fun s => D.contains s && !(s == "")))) ∧
    _getTargets cli D true ≠ [] ∧
    _getTargets cli0 D true = D ∧
    _getTargets cliE D true = D := by
  refine ⟨getTargets_strict_eq cli D v hv hne, ?_, getTargets_absent cli0 D true h0,
    getTargets_empty_option cliE D true hE⟩
  rw [getTargets_strict_eq cli D v hv hne]
  by_cases hk : ((jsSplit ',' v).map jsTrim).filter (fun s => D.contains s && !(s == "")) = []
  · rw [if_pos hk]
    exact hD
  · rw [if_neg hk]
    exact hk

/-- Witness for claim C5 at the option value a,b,bogus against the defaults
a and b, plus the absent-option and empty-option cases. -/
theorem c5_strict_resolution_witness :
    _getTargets (cliWithTarget "a,b,bogus") ["a", "b"] true = ["a", "b"] ∧
    _getTargets (cliWithTarget "a,b,bogus") ["a", "b"] true ≠ [] ∧
    _getTargets cliNone ["a", "b"] true = ["a", "b"] ∧
    _getTargets (cliWithTarget "") ["a", "b"] true = ["a", "b"] :=
  c5_strict_resolution ["a", "b"] (by decide) "a,b,bogus" (cliWithTarget "a,b,bogus") cliNone
    (cliWithTarget "") rfl (by decide) rfl rfl

/-- Claim C10: the manifest task invokes the manifest writer for the server
target in addition to every target of the resolved target list; with no
target option the writer runs for exactly dist, dist-dev and server, in that
order. -/
theorem c10_manifest_server_target (cli : Cli) :
    TASKS_build_manifest cli = _getTargets cli ["dist", "dist-dev"] false ++ ["server"] ∧
    "server" ∈ TASKS_build_manifest cli ∧
    (∀ t ∈ _getTargets cli ["dist", "dist-dev"] false, t ∈ TASKS_build_manifest cli) ∧
    (cli.option "target" = none → TASKS_build_manifest cli = ["dist", "dist-dev", "server"]) := by
  refine ⟨rfl, ?_, ?_, ?_⟩
  · simp [TASKS_build_manifest]
  · intro t ht
    simp [TASKS_build_manifest, ht]
  · intro h0
    simp [TASKS_build_manifest, getTargets_absent cli _ false h0]

/-- Witness for claim C10 at a CLI with no target option. -/
theorem c10_manifest_server_target_witness :
    TASKS_build_manifest cliNone = ["dist", "dist-dev", "server"] :=
  (c10_manifest_server_target cliNone).2.2.2 rfl

/-- Claim C8: with the name option absent, or present without a slash
separator, the package task fails with the invalid-package-name error and
the single-package builder is invoked for no target. -/
theorem c8_package_name_validation (cli : Cli)
    (h : ∀ s, cli.option "name" = some s → s.data.contains '/' = false) :
    TASKS_build_package cli = ([], Except.error "Invalid package name") := by
  cases hn : cli.option "name" with
  | none => simp [TASKS_build_package, hn, jsTruthyStr]
  | some s =>
    by_cases hs : s = ""
    · subst hs
      simp [TASKS_build_package, hn, jsTruthyStr]
    · have hc := h s hn
      have hc2 : '/' ∉ s.data := fun hin => by simp [List.contains, hin] at hc
      simp [TASKS_build_package, hn, jsTruthyStr, hc2, beq_eq_false_iff_ne.mpr hs]

/-- Witness for claim C8 at the separator-free name app and at the absent
name option. -/
theorem c8_package_name_validation_witness :
    TASKS_build_package (cliWithName "app") = ([], Except.error "Invalid package name") ∧
    TASKS_build_package cliNone = ([], Except.error "Invalid package name") :=
  ⟨c8_package_name_validation (cliWithName "app") (fun s hs => by
      injection (show some "app" = some s from hs) with h3
      subst h3
      decide),
   c8_package_name_validation cliNone (fun s hs => by
      exact absurd (show (none : Option String) = some s from hs) (by simp))⟩

/-- Claim C9: before the chain splits its task-name list on commas, exactly
the first whitespace character of the whole string is removed (the source
replace is not global), so any later whitespace survives into the entries
used for lookup; concretely the entry list of the string config, core,
themes keeps the space in front of themes, and that entry then fails lookup
even in a table where themes is registered. -/
theorem c9_first_whitespace_only {Cfg α : Type} (cli : Cli) (cfg : Cfg)
    (h : Cli → Cfg → Except String α)
    (pre : List Char) (w : Char) (post : List Char) (s : String)
    (hpre : ∀ c ∈ pre, c.isWhitespace = false) (hw : w.isWhitespace = true)
    (hs : s.data = pre ++ w :: post) :
    (removeFirstWs s).data = pre ++ post ∧
    chainEntries "config, core, themes" = ["config", "core", " themes"] ∧
    taskStep cli cfg (TaskNamespace.table [("themes", h)]) " themes" =
      ([], Except.error "Invalid task:  themes") := by
  refine ⟨?_, by decide, ?_⟩
  · rw [removeFirstWs, data_asString, hs, removeFirstWsData_here pre w post hpre hw]
  · rfl

/-- Witness for claim C9 at the string with two spaces, only the first of
which is removed. -/
theorem c9_first_whitespace_only_witness :
    (removeFirstWs "a  b").data = ['a', ' ', 'b'] ∧
    chainEntries "config, core, themes" = ["config", "core", " themes"] ∧
    taskStep cliNone () (TaskNamespace.table [("themes", fun _ _ => Except.ok ())]) " themes" =
      ([], Except.error "Invalid task:  themes") :=
  c9_first_whitespace_only cliNone () (fun _ _ => Except.ok ()) ['a'] ' ' [' ', 'b'] "a  b"
    (by decide) (by decide) rfl

/-- Claim C4: the chain runner executes the resolved handlers strictly left
to right; on an all-success chain every handler runs in order and the
results aggregate in order, while after the first failing step no later
handler is ever invoked and exactly that failure propagates to the caller. -/
theorem c4_sequential_first_failure {Cfg α : Type} (cli : Cli) (cfg : Cfg)
    (ns : TaskNamespace Cfg α) (args : String) (hargs : args ≠ "") :
    (∀ (okpre : List (List String × α)) (tr : List String) (e : String)
        (rest : List (List String × Except String α)),
      (chainEntries args).map (taskStep cli cfg ns) =
          okpre.map (fun p => (p.1, Except.ok p.2)) ++ (tr, Except.error e) :: rest →
      _eachTask cli (some args) (Except.ok cfg) ns =
        { configLoads := 1, invoked := (okpre.map Prod.fst).flatten ++ tr,
          outcome := Except.error e }) ∧
    (∀ okall : List (List String × α),
      (chainEntries args).map (taskStep cli cfg ns) =
          okall.map (fun p => (p.1, Except.ok p.2)) →
      _eachTask cli (some args) (Except.ok cfg) ns =
        { configLoads := 1, invoked := (okall.map Prod.fst).flatten,
          outcome := Except.ok (okall.map Prod.snd) }) := by
  have ht : jsTruthyStr (some args) = true := by
    simp [jsTruthyStr, beq_eq_false_iff_ne.mpr hargs]
  constructor
  · intro okpre tr e rest hsteps
    simp only [_eachTask, ht, if_true, Option.getD_some, hsteps, eachp_first_error]
  · intro okall hsteps
    simp only [_eachTask, ht, if_true, Option.getD_some, hsteps, eachp_all_ok]

/-- Witness for claim C4: in the chain config, core, themes whose core
handler fails, only config and core run and exactly the core failure
propagates. -/
theorem c4_sequential_first_failure_witness :
    _eachTask cliNone (some "config,core,themes") (Except.ok ())
        (TaskNamespace.table [("config", fun _ _ => Except.ok ()),
          ("core", fun _ _ => Except.error "core failed"),
          ("themes", fun _ _ => Except.ok ())]) =
      { configLoads := 1, invoked := ["config", "core"],
        outcome := Except.error "core failed" } :=
  (c4_sequential_first_failure cliNone ()
      (TaskNamespace.table [("config", fun _ _ => Except.ok ()),
        ("core", fun _ _ => Except.error "core failed"),
        ("themes", fun _ _ => Except.ok ())]) "config,core,themes" (by decide)).1
    [(["config"], ())] ["core"] "core failed" [(["themes"], Except.ok ())] rfl

/-- Claim C6: a chain entry is normalized by rewriting only its first hyphen
to an underscore before a case-sensitive exact lookup; an entry whose
normalized name is unregistered rejects with an error naming it; the chain
runner loads the configuration at most once per invocation; and the config
entry point rejects an unknown action naming it, without loading the
configuration at all. -/
theorem c6_normalization_unknown_task {Cfg α : Type} (cli : Cli) (cfg : Cfg)
    (tbl : List (String × (Cli → Cfg → Except String α)))
    (pre post : List Char) (hpre : ∀ x ∈ pre, (x == '-') = false)
    (iter0 : String) (hiter : iter0.data = pre ++ '-' :: post)
    (args : Option String) (getCfg : Except String Cfg)
    (ctbl : List (String × (Cli → Cfg → Except String Unit))) (arg : Option String) :
    (replaceFirst '-' '_' iter0).data = pre ++ '_' :: post ∧
    (∀ n : String, ((lookupTask tbl n).isSome = true ↔ n ∈ tbl.map Prod.fst)) ∧
    (∀ n : String, replaceFirst '-' '_' n ∉ tbl.map Prod.fst →
      taskStep cli cfg (TaskNamespace.table tbl) n =
        ([], Except.error ("Invalid task: " ++ replaceFirst '-' '_' n))) ∧
    (_eachTask cli args getCfg (TaskNamespace.table tbl)).configLoads ≤ 1 ∧
    (lookupTask ctbl (replaceFirst '-' '_' (arg.getD "")) = none →
      configEntry cli arg getCfg ctbl =
        { configLoads := 0, invoked := [],
          outcome := SettleOutcome.rejected
            ("Invalid action: " ++ replaceFirst '-' '_' (arg.getD "")) }) ∧
    (∀ (args2 : String) (okpre : List (List String × α))
        (rest : List (List String × Except String α)) (n : String),
      args2 ≠ "" →
      (chainEntries args2).map (taskStep cli cfg (TaskNamespace.table tbl)) =
          okpre.map (fun p => (p.1, Except.ok p.2)) ++
            ([], Except.error ("Invalid task: " ++ replaceFirst '-' '_' n)) :: rest →
      (_eachTask cli (some args2) (Except.ok cfg) (TaskNamespace.table tbl)).outcome =
        Except.error ("Invalid task: " ++ replaceFirst '-' '_' n)) := by
  refine ⟨?_, fun n => lookupTask_isSome_iff tbl n, ?_, ?_, ?_, ?_⟩
  · rw [replaceFirst, data_asString, hiter, replaceFirstData_here '-' '_' pre post hpre]
  · intro n hn
    cases hl : lookupTask tbl (replaceFirst '-' '_' n) with
    | some f =>
      exact absurd ((lookupTask_isSome_iff tbl _).mp (by rw [hl]; rfl)) hn
    | none => simp [taskStep, hl]
  · cases hJ : jsTruthyStr args <;> cases getCfg <;> simp [_eachTask, hJ]
  · intro hl
    simp [configEntry, hl]
  · intro args2 okpre rest n hargs hsteps
    have ht : jsTruthyStr (some args2) = true := by
      simp [jsTruthyStr, beq_eq_false_iff_ne.mpr hargs]
    simp only [_eachTask, ht, if_true, Option.getD_some, hsteps, eachp_first_error]

/-- Witness for claim C6: the name add-bogus normalizes to add_bogus, and
the config entry point rejects the unknown action bogus_action with no
configuration load. -/
theorem c6_normalization_unknown_task_witness :
    (replaceFirst '-' '_' "add-bogus").data = "add".data ++ '_' :: "bogus".data ∧
    configEntry cliNone (some "bogus_action") (Except.ok ()) (okTable configTaskNames) =
      { configLoads := 0, invoked := [],
        outcome := SettleOutcome.rejected "Invalid action: bogus_action" } :=
  ⟨(c6_normalization_unknown_task cliNone () (okTable configTaskNames) "add".data "bogus".data
      (by decide) "add-bogus" rfl (some "x") (Except.ok ()) (okTable configTaskNames)
      (some "bogus_action")).1,
   (c6_normalization_unknown_task cliNone () (okTable configTaskNames) "add".data "bogus".data
      (by decide) "add-bogus" rfl (some "x") (Except.ok ()) (okTable configTaskNames)
      (some "bogus_action")).2.2.2.2.1 rfl⟩

/-- Claim C1 counterexample: at the config entry point with the known action
get, a failing configuration load leaves the invocation pending forever, not
settled as the failure the claim requires; no handler runs. -/
theorem c1_config_entry_counterexample :
    configEntry cliNone (some "get") (Except.error "ConfigLoadFailure")
        (okTable configTaskNames) =
      { configLoads := 1, invoked := [], outcome := SettleOutcome.pending } ∧
    (SettleOutcome.pending : SettleOutcome Unit) ≠ SettleOutcome.rejected "ConfigLoadFailure" :=
  ⟨rfl, by decide⟩

/-- Claim C1 amended: a configuration load failure aborts the chain runner
used by the build and generate entry points, settling the invocation with
exactly that failure and running no task handler; the config entry point
with a recognized action likewise runs no handler on a load failure, but its
returned promise never settles, so the failure is not propagated there. -/
theorem c1_config_load_failure {Cfg α : Type} (cli : Cli) (args : Option String)
    (ns : TaskNamespace Cfg α) (e : String)
    (btbl : List (String × (Cli → Cfg → Except String α)))
    (g : Cli → Cfg → String → Except String α)
    (ctbl : List (String × (Cli → Cfg → Except String Unit))) (arg : Option String) :
    (jsTruthyStr args = true →
      _eachTask cli args (Except.error e) ns =
        { configLoads := 1, invoked := [], outcome := Except.error e }) ∧
    buildEntry cli args (Except.error e) btbl =
      { configLoads := 1, invoked := [], outcome := Except.error e } ∧
    (jsTruthyStr args = true →
      generateEntry cli args (Except.error e) g =
        { configLoads := 1, invoked := [], outcome := Except.error e }) ∧
    ((lookupTask ctbl (replaceFirst '-' '_' (arg.getD ""))).isSome = true →
      configEntry cli arg (Except.error e) ctbl =
        { configLoads := 1, invoked := [], outcome := SettleOutcome.pending }) := by
  refine ⟨?_, ?_, ?_, ?_⟩
  · intro h
    simp [_eachTask, h]
  · by_cases h : jsTruthyStr args = true
    · simp [buildEntry, h, _eachTask]
    · have h2 : jsTruthyStr args = false := by
        cases hx : jsTruthyStr args
        · rfl
        · exact absurd hx h
      have h3 : jsTruthyStr (some (buildEntryArgs (btbl.map Prod.fst))) = true := by
        simp [jsTruthyStr, beq_eq_false_iff_ne.mpr (buildEntryArgs_ne_empty _)]
      simp [buildEntry, h2, _eachTask, h3]
  · intro h
    simp [generateEntry, _eachTask, h]
  · intro h
    obtain ⟨f, hf⟩ := Option.isSome_iff_exists.mp h
    simp [configEntry, hf]

/-- Witness for the amended claim C1: a failing load rejects the chain
runner with the same failure and no handler run, and leaves the config entry
point pending on the known action get. -/
theorem c1_config_load_failure_witness :
    _eachTask cliNone (some "config") (Except.error "boom")
        (TaskNamespace.table (okTable ["config"])) =
      { configLoads := 1, invoked := [], outcome := Except.error "boom" } ∧
    configEntry cliNone (some "get") (Except.error "boom") (okTable configTaskNames) =
      { configLoads := 1, invoked := [], outcome := SettleOutcome.pending } :=
  ⟨(c1_config_load_failure cliNone (some "config") (TaskNamespace.table (okTable ["config"]))
      "boom" (okTable ["config"]) (fun _ _ _ => Except.ok ()) (okTable configTaskNames)
      (some "get")).1 rfl,
   (c1_config_load_failure cliNone (some "config") (TaskNamespace.table (okTable ["config"]))
      "boom" (okTable ["config"]) (fun _ _ _ => Except.ok ()) (okTable configTaskNames)
      (some "get")).2.2.2 rfl⟩

/-- Claim C3: with no task-name argument the build entry point executes the
canonical list config, core, themes, manifest, packages followed by exactly
the names registered under the build namespace that are outside the original
snapshot and the canonical list, in registry iteration order, each at most
once; concretely a registry extended with lint yields the six-stage chain
ending in lint. -/
theorem c3_default_build_list (K : List String) (hK : K.Nodup) :
    (∃ A, buildDefaultList K = CANONICAL_BUILD_STAGES ++ A ∧ A.Sublist K ∧ A.Nodup ∧
      (∀ n, n ∈ A ↔ n ∈ K ∧ n ∉ ORIGINAL_TASKS_build ∧ n ∉ CANONICAL_BUILD_STAGES)) ∧
    buildEntryArgs (ORIGINAL_TASKS_build ++ ["lint"]) =
      "config,core,themes,manifest,packages,lint" ∧
    (buildEntry cliNone none (Except.ok ())
        (okTable (ORIGINAL_TASKS_build ++ ["lint"]))).invoked =
      ["config", "core", "themes", "manifest", "packages", "lint"] := by
  refine ⟨⟨K.filter (fun i => !(ORIGINAL_TASKS_build.contains i) &&
      !(CANONICAL_BUILD_STAGES.contains i)), rfl, List.filter_sublist K, hK.filter _, ?_⟩,
    by decide, by decide⟩
  intro n
  simp [List.mem_filter, List.contains, and_assoc]

/-- Witness for claim C3 at the original task table extended with lint. -/
theorem c3_default_build_list_witness :
    buildEntryArgs (ORIGINAL_TASKS_build ++ ["lint"]) =
      "config,core,themes,manifest,packages,lint" ∧
    (buildEntry cliNone none (Except.ok ())
        (okTable (ORIGINAL_TASKS_build ++ ["lint"]))).invoked =
      ["config", "core", "themes", "manifest", "packages", "lint"] :=
  ⟨(c3_default_build_list (ORIGINAL_TASKS_build ++ ["lint"]) (by decide)).2.1,
   (c3_default_build_list (ORIGINAL_TASKS_build ++ ["lint"]) (by decide)).2.2⟩
